import Mathlib

/-!
Shallow embedding of the Adamant_full ingestion pipeline
(`src/bin/webdav_ingest.py` and `src/bin/insert_data2db_win.py`).

Python JSON values are modelled by the inductive `Json` (numbers as `Int`;
none of the verified claims involves fractional numbers).  A parsed JSON
document (a Python `dict` with insertion-ordered, unique string keys) is a
`Doc`, an association list preserving key order.  Relational values produced
by the write path are `SqlVal` (`null` models SQL NULL / Python `None`).

Database effects are modelled explicitly: a `Db` maps table names to a
`Table` (current column list, unique-key column indices modelling the
MySQL primary/unique key consulted by `ON DUPLICATE KEY UPDATE`, and rows).
External effects (HTTP fetch, schema file lookup, jsonschema evaluation,
exceptions raised by the driver) are inputs to the orchestrator functions,
and the observable calls the code issues are recorded as an `Act` trace.
-/

/-- JSON value, as produced by `json.loads`.  Numbers are modelled as `Int`. -/
inductive Json where
  | null
  | bool (b : Bool)
  | num (n : Int)
  | str (s : String)
  | arr (xs : List Json)
  | obj (fields : List (String × Json))

/-- Parsed JSON document: a Python dict in key insertion order (keys unique). -/
abbrev Doc := List (String × Json)

/-- Value bound to a SQL parameter / stored in a row (`null` = SQL NULL). -/
inductive SqlVal where
  | null
  | bool (b : Bool)
  | int (n : Int)
  | str (s : String)
deriving DecidableEq, Repr

/-- Escape of a single character inside a JSON string literal, as
`json.dumps` emits it (quote and backslash; the documents in scope contain
no control characters). -/
def escapeChar (c : Char) : String :=
  if c = '\\' then "\\\\"
  else if c = '"' then "\\\""
  else String.singleton c

/-- JSON string literal with quotes, as emitted by `json.dumps`. -/
def quoteStr (s : String) : String :=
  "\"" ++ String.join (s.toList.map escapeChar) ++ "\""

mutual

/-- Model of `json.dumps(value, ensure_ascii=False)` with the default
separators `", "` and `": "` (used by `normalize_value` in both ingesters). -/
def dumps : Json → String
  | .null => "null"
  | .bool true => "true"
  | .bool false => "false"
  | .num n => toString n
  | .str s => quoteStr s
  | .arr xs => "[" ++ dumpsArr xs ++ "]"
  | .obj fs => "\x7b" ++ dumpsObj fs ++ "\x7d"

/-- Comma-separated serialization of a JSON array body. -/
def dumpsArr : List Json → String
  | [] => ""
  | [x] => dumps x
  | x :: y :: rest => dumps x ++ ", " ++ dumpsArr (y :: rest)

/-- Comma-separated serialization of a JSON object body. -/
def dumpsObj : List (String × Json) → String
  | [] => ""
  | [(k, v)] => quoteStr k ++ ": " ++ dumps v
  | (k, v) :: kv :: rest => quoteStr k ++ ": " ++ dumps v ++ ", " ++ dumpsObj (kv :: rest)

end

/-- Python truthiness of a JSON value (`if not x`, `x or y`):
`None`, `False`, `0`, `""`, `[]` and `{}` are falsy. -/
def truthy : Json → Bool
  | .null => false
  | .bool b => b
  | .num n => n != 0
  | .str s => !(s == "")
  | .arr xs => !xs.isEmpty
  | .obj fs => !fs.isEmpty

/-- Model of Python `dict.get` on a document (exact key match; keys of a
Python dict are unique, so the first match is the only one). -/
def pyGet (data : Doc) (k : String) : Option Json :=
  (data.find? (fun kv => kv.1 == k)).map (fun kv => kv.2)

/-- Model of Python `str()` on a JSON value.  Scalars follow Python
(`None` ↦ "None", booleans capitalized, numbers printed); for containers the
model reuses the JSON text (Python `str()` would use `repr` quoting instead,
but no verified claim stringifies a container). -/
def pyStr : Json → String
  | .null => "None"
  | .bool true => "True"
  | .bool false => "False"
  | .num n => toString n
  | .str s => s
  | v => dumps v

/-- Conversion a scalar Python value undergoes when bound as a SQL parameter
by the driver (used by `delete_row`; containers are approximated by their
JSON text — the identifiers stored in the state snapshot are strings). -/
def jsonToSql : Json → SqlVal
  | .null => .null
  | .bool b => .bool b
  | .num n => .int n
  | .str s => .str s
  | v => .str (dumps v)

/-- Model of `normalize_value` (both ingesters): dicts and lists are stored
as their JSON text, everything else passes through; Python `None` (absent
or JSON null) becomes SQL NULL. -/
def normalize_value : Option Json → SqlVal
  | none => .null
  | some .null => .null
  | some (.bool b) => .bool b
  | some (.num n) => .int n
  | some (.str s) => .str s
  | some (.arr xs) => .str (dumps (.arr xs))
  | some (.obj fs) => .str (dumps (.obj fs))

/-- ASCII lower-casing of a string, as Python `str.lower` acts on the
ASCII keys and column names in scope (written over the character list so
that it evaluates by kernel reduction). -/
def lowerStr (s : String) : String :=
  (s.toList.map Char.toLower).asString

/-- Key normalization used by `get_schema_id` in both ingesters:
`key.replace("_", "").lower()`. -/
def normKey (k : String) : String :=
  lowerStr (k.toList.filter (fun c => c ≠ '_')).asString

/-- Model of `get_schema_id` (webdav_ingest.py lines 184-188,
insert_data2db_win.py lines 76-81): scan the document keys in order and
return the stringified value of the first key normalizing to "schemaid". -/
def get_schema_id (data : Doc) : Option String :=
  match data.find? (fun kv => normKey kv.1 == "schemaid") with
  | some kv => some (pyStr kv.2)
  | none => none

/-- Second operand of the `or` chain in `get_identifier`
(webdav_ingest.py line 192): `data.get("identifier") or fallback`. -/
def identFallback (data : Doc) (fallback : String) : String :=
  match pyGet data "identifier" with
  | some v => if truthy v then pyStr v else fallback
  | none => fallback

/-- Model of `get_identifier` (webdav_ingest.py lines 191-192):
`str(data.get("Identifier") or data.get("identifier") or fallback)`.
Python `or` returns its first truthy operand, so a falsy value is skipped. -/
def get_identifier (data : Doc) (fallback : String) : String :=
  match pyGet data "Identifier" with
  | some v => if truthy v then pyStr v else identFallback data fallback
  | none => identFallback data fallback

/-- Second operand of the `or` chain on insert_data2db_win.py line 166. -/
def winIdentFallback (data : Doc) (stem : String) : Json :=
  match pyGet data "identifier" with
  | some v => if truthy v then v else .str stem
  | none => .str stem

/-- Model of insert_data2db_win.py line 166:
`data.get("Identifier") or data.get("identifier") or file_path.stem`
(note: unlike the webdav variant this is not wrapped in `str()`, so a truthy
non-string value is kept as is). -/
def winIdentifier (data : Doc) (stem : String) : Json :=
  match pyGet data "Identifier" with
  | some v => if truthy v then v else winIdentFallback data stem
  | none => winIdentFallback data stem

/-- Split of a character list at every occurrence of a separator character
(semantics of Python `str.split` with a one-character separator). -/
def splitOnChar (c : Char) : List Char → List (List Char)
  | [] => [[]]
  | x :: xs =>
    let r := splitOnChar c xs
    if x == c then [] :: r
    else
      match r with
      | [] => [[x]]
      | y :: ys => (x :: y) :: ys

/-- Concatenation of character-list parts with a dot between them
(inverse of splitting on a dot). -/
def joinWithDot : List (List Char) → List Char
  | [] => []
  | [x] => x
  | x :: y :: rest => x ++ '.' :: joinWithDot (y :: rest)

/-- Final path component, as `pathlib` computes `.name` for the simple
slash-separated paths/hrefs handled by the ingesters. -/
def lastComponent (p : String) : String :=
  ((splitOnChar '/' p.toList).getLastD []).asString

/-- Stem of a file name, following `pathlib`: the name without its suffix;
a name whose only dot is leading, or whose last dot is trailing, has no
suffix. -/
def stemOfName (name : String) : String :=
  let parts := splitOnChar '.' name.toList
  if parts.length ≤ 1 then name
  else if parts.headD [] == ([] : List Char) && parts.length == 2 then name
  else if parts.getLastD [] == ([] : List Char) then name
  else (joinWithDot parts.dropLast).asString

/-- Model of `Path(p).stem` for the paths handled by the ingesters. -/
def pathStem (p : String) : String :=
  stemOfName (lastComponent p)

/-- Lookup in the lower-cased key map `{str(k).lower(): k for k in data.keys()}`
built by both `process_file` functions: a dict comprehension, so for keys
sharing a lower-casing the LAST one wins. -/
def lowerKeyLookup (data : Doc) (lc : String) : Option String :=
  data.foldl (fun acc kv => if lowerStr kv.1 == lc then some kv.1 else acc) none

/-- Projection of one table column from a document, as the shared column
loop of webdav_ingest.py lines 248-258 and insert_data2db_win.py lines
95-107 computes it: case-insensitively match a document key; a missing key
or a `None` value triggers the default fill (`identifier`-named column gets
the identifier value, `documentlocation`-named column gets the source
path/URL); the result goes through `normalize_value`. -/
def projectCell (data : Doc) (identifier : Json) (location : String) (column : String) : SqlVal :=
  let matched : Option Json :=
    match lowerKeyLookup data (lowerStr column) with
    | some k =>
      match pyGet data k with
      | some Json.null => none
      | some v => some v
      | none => none
    | none => none
  let filled : Option Json :=
    match matched with
    | some v => some v
    | none =>
      if lowerStr column == "identifier" then some identifier
      else if lowerStr column == "documentlocation" then some (.str location)
      else none
  normalize_value filled

/-- Row projected for a table, one value per column in column order
(the `values` list both `process_file` functions build). -/
def projectRow (columns : List String) (data : Doc) (identifier : Json) (location : String) :
    List SqlVal :=
  columns.map (projectCell data identifier location)

/-- Relational table as the write path observes it: current column list
(`SHOW COLUMNS` order), the column indices of its primary/unique key
(consulted by `ON DUPLICATE KEY UPDATE`), and its rows. -/
structure Table where
  columns : List String
  uniqueKey : List Nat
  rows : List (List SqlVal)
deriving DecidableEq, Repr

/-- Database: association list from table name to table. -/
abbrev Db := List (String × Table)

/-- Table lookup by name. -/
def dbGet (db : Db) (name : String) : Option Table :=
  (db.find? (fun kv => kv.1 == name)).map (fun kv => kv.2)

/-- Replacement of an existing table's contents (the write path never
creates or drops tables, so a missing name is left alone). -/
def dbSet : Db → String → Table → Db
  | [], _, _ => []
  | kv :: rest, n, t => if kv.1 == n then (n, t) :: rest else kv :: dbSet rest n t

/-- Key of a row under the table's unique-key column indices. -/
def keyOf (idxs : List Nat) (row : List SqlVal) : List SqlVal :=
  idxs.map (fun i => row.getD i .null)

/-- Row-list semantics of
`INSERT ... ON DUPLICATE KEY UPDATE col=VALUES(col), ...` over every column
(insert_data2db_win.py lines 109-116): on a unique-key conflict the existing
row is overwritten wholesale with the new values, otherwise the row is
appended. -/
def upsertRows (idxs : List Nat) (r : List SqlVal) : List (List SqlVal) → List (List SqlVal)
  | [] => [r]
  | row :: rest =>
    if keyOf idxs row == keyOf idxs r then r :: rest else row :: upsertRows idxs r rest

/-- Identifier column chosen by webdav_ingest.py line 240:
`"Identifier" if "Identifier" in columns else "identifier"`. -/
def identifierCol (columns : List String) : String :=
  if columns.contains "Identifier" then "Identifier" else "identifier"

/-- Index of the identifier column used by `delete_row`
(insert_data2db_win.py lines 119-127), `none` when the table has neither
an `Identifier` nor an `identifier` column. -/
def idColIdx (columns : List String) : Option Nat :=
  if columns.contains "Identifier" then some (columns.indexOf "Identifier")
  else if columns.contains "identifier" then some (columns.indexOf "identifier")
  else none

/-- Model of `delete_row` (insert_data2db_win.py lines 119-127): delete
every row of `table` whose identifier column equals the stored identifier;
a table without an identifier column is left alone, and a missing table
(where `SHOW COLUMNS` raises, caught by the caller) leaves the db unchanged. -/
def delete_row (db : Db) (table : String) (identifier : Json) : Db :=
  match dbGet db table with
  | none => db
  | some t =>
    match idColIdx t.columns with
    | none => db
    | some idx =>
      dbSet db table
        { t with rows := t.rows.filter (fun row => !(row.getD idx .null == jsonToSql identifier)) }

/-- Marker string checked by the remote ingester (webdav_ingest.py line 15). -/
def FILE_TYPE_IDENTIFIER : String :=
  "This is a EMPI-RF metadata File. Do not change this for crawler identification"

/-- Observable database/transport calls issued while handling one entry. -/
inductive Act where
  | fetch (path : String)
  | selectForUpdate (table col ident : String)
  | insert (table : String) (row : List SqlVal)
  | commit
  | rollback
  | stateWrite (path status : String)
deriving DecidableEq, Repr

/-- Outcome of a `process_file` call as the caller observes it: a returned
`(ok, message)` pair, or a raised exception. -/
inductive ProcResult where
  | ret (ok : Bool) (msg : String)
  | raise (msg : String)
deriving DecidableEq, Repr

/-- Model of `process_file` (webdav_ingest.py lines 211-265).  External
inputs are explicit: the allow-list, whether the schema file exists, and the
jsonschema verdict.  Returns the observed result, the database after the
call, and the issued write-path actions.  A table whose columns contain
neither `Identifier` nor `identifier` makes the SELECT raise an unknown
column error, modelled by `ProcResult.raise`. -/
def process_file (db : Db) (allowed : Option (List String)) (schemaExists : Bool)
    (valError : Option String) (url : String) (data : Doc) (schema_id : String)
    (identifier : String) : ProcResult × Db × List Act :=
  if (match allowed with | some lst => !(lst.contains schema_id) | none => false) then
    (.ret false ("SchemaID " ++ schema_id ++ " not in allow-list."), db, [])
  else if !schemaExists then
    (.ret false ("Schema file not found: " ++ schema_id ++ ".json"), db, [])
  else
    match valError with
    | some m => (.ret false ("Schema validation failed: " ++ m), db, [])
    | none =>
      match dbGet db schema_id with
      | none => (.ret false ("Table " ++ schema_id ++ " does not exist."), db, [])
      | some t =>
        if t.columns.isEmpty then
          (.ret false ("Table " ++ schema_id ++ " has no columns."), db, [])
        else
          let idcol := identifierCol t.columns
          if t.columns.contains idcol then
            let idx := t.columns.indexOf idcol
            if t.rows.any (fun row => row.getD idx .null == .str identifier) then
              (.ret false ("Identifier " ++ identifier ++ " already exists in " ++ schema_id ++ "."),
               db,
               [.selectForUpdate schema_id idcol identifier, .commit])
            else
              let row := projectRow t.columns data (.str identifier) url
              (.ret true "inserted",
               dbSet db schema_id { t with rows := t.rows ++ [row] },
               [.selectForUpdate schema_id idcol identifier, .insert schema_id row, .commit])
          else
            (.raise ("Unknown column " ++ idcol ++ " in where clause"), db,
             [.selectForUpdate schema_id idcol identifier])

/-- Remote entry as the scan loop sees it after `parse_propfind` filtering. -/
structure Entry where
  href : String
  etag : String
  last_modified : String
deriving DecidableEq, Repr

/-- Previous state record for a path as loaded by `get_state_map`
(webdav_ingest.py lines 132-148: only etag, last_modified and status are
selected). -/
structure PrevRec where
  etag : String
  last_modified : String
  status : String
deriving DecidableEq, Repr

/-- Result of the GET + JSON parse for one entry (external input). -/
inductive FetchOutcome where
  | failure (msg : String)
  | success (data : Doc)

/-- State-table row written by the scan loop's `REPLACE INTO ingest_state`
statements (columns omitted by a REPLACE become NULL, i.e. `none`). -/
structure StateRec where
  path : String
  etag : String
  last_modified : String
  schema_id : Option String
  identifier : Option String
  status : String
  error : Option String

/-- Skip test of webdav_ingest.py line 355: a prior record exists and its
etag, last_modified and status fields match the entry's current change
token with status "ok". -/
def unchangedEntry (prev : Option PrevRec) (e : Entry) : Bool :=
  match prev with
  | some p => p.etag == e.etag && p.last_modified == e.last_modified && p.status == "ok"
  | none => false

/-- Status string the scan loop records for a `process_file` outcome
(webdav_ingest.py lines 405 and 420): `"ok" if ok else "skipped"`, and
`"error"` for a raised exception. -/
def statusFor : ProcResult → String
  | .ret true _ => "ok"
  | .ret false _ => "skipped"
  | .raise _ => "error"

/-- FileTypeIdentifier acceptance test of webdav_ingest.py line 373
(`data.get("FileTypeIdentifier") != FILE_TYPE_IDENTIFIER` skips): true only
when the field holds exactly the marker string. -/
def fileTypeOk (data : Doc) : Bool :=
  match pyGet data "FileTypeIdentifier" with
  | some (.str s) => s == FILE_TYPE_IDENTIFIER
  | _ => false

/-- Truthiness of the extracted SchemaID as tested by `if not schema_id:`
(webdav_ingest.py line 383): `None` and the empty string are falsy. -/
def schemaIdTruthy : Option String → Bool
  | none => false
  | some s => !(s == "")

/-- Model of the per-entry body of the scan loop (webdav_ingest.py lines
349-422).  `prev` is the loaded state for the entry's path, `fetch` the
outcome of the GET + parse, and `proc` the observed behaviour of the
`process_file` call (its result plus the write-path actions it issued
before returning or raising).  Returns the issued action trace and the
state record REPLACEd for this path (none when the entry is skipped as
unchanged). -/
def processEntry (prev : Option PrevRec) (e : Entry) (fetch : FetchOutcome)
    (proc : Doc → ProcResult × List Act) : List Act × Option StateRec :=
  if unchangedEntry prev e then ([], none)
  else
    match fetch with
    | .failure msg =>
      ([.fetch e.href, .stateWrite e.href "error", .commit],
       some { path := e.href, etag := e.etag, last_modified := e.last_modified,
              schema_id := none, identifier := none, status := "error",
              error := some ("download/parse error: " ++ msg) })
    | .success data =>
      if !fileTypeOk data then
        ([.fetch e.href, .stateWrite e.href "skipped", .commit],
         some { path := e.href, etag := e.etag, last_modified := e.last_modified,
                schema_id := none, identifier := none, status := "skipped",
                error := some "invalid FileTypeIdentifier" })
      else if !schemaIdTruthy (get_schema_id data) then
        ([.fetch e.href, .stateWrite e.href "skipped", .commit],
         some { path := e.href, etag := e.etag, last_modified := e.last_modified,
                schema_id := none, identifier := none, status := "skipped",
                error := some "missing SchemaID" })
      else
        let sid := (get_schema_id data).getD ""
        let ident := get_identifier data (pathStem e.href)
        match proc data with
        | (.ret ok msg, acts) =>
          ([.fetch e.href] ++ acts ++
             [.stateWrite e.href (statusFor (.ret ok msg)), .commit],
           some { path := e.href, etag := e.etag, last_modified := e.last_modified,
                  schema_id := some sid, identifier := some ident,
                  status := statusFor (.ret ok msg),
                  error := if ok then none else some msg })
        | (.raise msg, acts) =>
          ([.fetch e.href] ++ acts ++
             [.rollback, .stateWrite e.href (statusFor (.raise msg)), .commit],
           some { path := e.href, etag := e.etag, last_modified := e.last_modified,
                  schema_id := some sid, identifier := some ident,
                  status := statusFor (.raise msg), error := some msg })

/-- Whole scan loop over the filtered file list: every entry is handled in
turn by `processEntry`; no outcome interrupts the loop.  Returns the
concatenated action trace and the state records written, in order. -/
def scanFiles (stateMap : String → Option PrevRec)
    (inputs : List (Entry × FetchOutcome × (Doc → ProcResult × List Act))) :
    List Act × List StateRec :=
  match inputs with
  | [] => ([], [])
  | (e, f, p) :: rest =>
    let r := processEntry (stateMap e.href) e f p
    let rs := scanFiles stateMap rest
    (r.1 ++ rs.1, (match r.2 with | some s => [s] | none => []) ++ rs.2)

/-- Model of `process_file` of the filesystem ingester
(insert_data2db_win.py lines 84-116): skip when the table is missing or has
no columns, otherwise project the row and upsert it
(`INSERT ... ON DUPLICATE KEY UPDATE` over every column). -/
def process_file_win (db : Db) (file_path : String) (table : String) (identifier : Json)
    (data : Doc) : Db :=
  match dbGet db table with
  | none => db
  | some t =>
    if t.columns.isEmpty then db
    else
      let row := projectRow t.columns data identifier file_path
      dbSet db table { t with rows := upsertRows t.uniqueKey row t.rows }

/-- Entry of the state snapshot file `.db_ingest_state.json`
(insert_data2db_win.py lines 167-170): target table and identifier
recorded for a path. -/
structure StateInfo where
  table : String
  identifier : Json

/-- One file found by the directory scan: its path string and the result of
`json.loads` on its contents (`none` models a read/parse error). -/
structure FileInput where
  path : String
  parsed : Option Doc

/-- Python dict assignment `current_state[path] = info` on an association
list: overwrite an existing key, else append. -/
def assocSet : List (String × StateInfo) → String → StateInfo → List (String × StateInfo)
  | [], p, i => [(p, i)]
  | kv :: rest, p, i => if kv.1 == p then (p, i) :: rest else kv :: assocSet rest p i

/-- Model of the per-file body of `run_once`
(insert_data2db_win.py lines 151-176): skip the state file itself, skip
unreadable files and files with a falsy SchemaID; otherwise record the
(table, identifier) pair in the current state and run the merge write
(whose database errors are caught and do not abort the loop). -/
def winFileStep (db : Db) (cur : List (String × StateInfo)) (f : FileInput) :
    Db × List (String × StateInfo) :=
  if lastComponent f.path == ".db_ingest_state.json" then (db, cur)
  else
    match f.parsed with
    | none => (db, cur)
    | some data =>
      match get_schema_id data with
      | none => (db, cur)
      | some sid =>
        if sid == "" then (db, cur)
        else
          let identifier := winIdentifier data (pathStem f.path)
          let cur2 := assocSet cur f.path { table := sid, identifier := identifier }
          (process_file_win db f.path sid identifier data, cur2)

/-- Model of `run_once` (insert_data2db_win.py lines 130-188): process every
scanned file against an initially empty current state; then, when
`delete_missing` is set, delete the table row of every previous-state path
absent from the current state; the returned current state is what gets
written to the snapshot file at the end. -/
def runOnce (db : Db) (prev : List (String × StateInfo)) (files : List FileInput)
    (deleteMissing : Bool) : Db × List (String × StateInfo) :=
  let res := files.foldl (fun acc f => winFileStep acc.1 acc.2 f) (db, ([] : List (String × StateInfo)))
  let db2 :=
    if deleteMissing then
      prev.foldl
        (fun d kv =>
          if (res.2.find? (fun c => c.1 == kv.1)).isSome then d
          else delete_row d kv.2.table kv.2.identifier)
        res.1
    else res.1
  (db2, res.2)

/-- Element of a jsonschema violation location path: an array index or an
object property name (the components of `ValidationError.path`). -/
inductive PathElem where
  | idx (n : Nat)
  | key (s : String)
deriving DecidableEq, Repr

/-- Strict elementwise comparison on path elements.  Indices compare as
numbers and property names as strings; an index sorts before a name, making
the order total (Python would raise on such a mixed comparison, which never
happens for violations of one document position). -/
def peLt : PathElem → PathElem → Bool
  | .idx a, .idx b => decide (a < b)
  | .key a, .key b => decide (a < b)
  | .idx _, .key _ => true
  | .key _, .idx _ => false

/-- Lexicographic comparison of violation location paths, as Python
compares the `deque` keys in `sorted(errors, key=lambda e: e.path)`. -/
def pathLe : List PathElem → List PathElem → Bool
  | [], _ => true
  | _ :: _, [] => false
  | a :: al, b :: bl => if peLt a b then true else if peLt b a then false else pathLe al bl

/-- Constraint violation reported by the validator: location path and
message (external input produced by `iter_errors`). -/
structure Violation where
  path : List PathElem
  message : String

/-- Path order lifted to violations (`key=lambda e: e.path`). -/
def vioLe (a b : Violation) : Prop := pathLe a.path b.path = true

instance : DecidableRel vioLe := fun a b => by
  unfold vioLe
  infer_instance

/-- Model of `validate_payload` (webdav_ingest.py lines 202-208) given the
violation list the validator produced: sort the violations by location path
(Python's `sorted` is stable; `List.insertionSort` is the matching stable
sort) and report the first message, or no error for an empty list. -/
def validate_payload (errors : List Violation) : Option String :=
  match List.insertionSort vioLe errors with
  | [] => none
  | e :: _ => some e.message

theorem peLt_irrefl (a : PathElem) : peLt a a = false := by
  cases a <;> simp [peLt]

theorem peLt_eq_of_not : ∀ a b : PathElem, peLt a b = false → peLt b a = false → a = b
  | .idx a, .idx b, h1, h2 => by
    simp only [peLt, decide_eq_false_iff_not, Nat.not_lt] at h1 h2
    exact congrArg PathElem.idx (le_antisymm h2 h1)
  | .key a, .key b, h1, h2 => by
    simp only [peLt, decide_eq_false_iff_not, not_lt] at h1 h2
    exact congrArg PathElem.key (le_antisymm h2 h1)
  | .idx _, .key _, h1, _ => by simp [peLt] at h1
  | .key _, .idx _, _, h2 => by simp [peLt] at h2

theorem peLt_trans : ∀ a b c : PathElem, peLt a b = true → peLt b c = true → peLt a c = true
  | .idx a, .idx b, .idx c, h1, h2 => by
    simp only [peLt, decide_eq_true_eq] at h1 h2 ⊢
    omega
  | .idx _, .idx _, .key _, _, _ => rfl
  | .idx _, .key _, .idx _, _, h2 => by simp [peLt] at h2
  | .idx _, .key _, .key _, _, _ => rfl
  | .key _, .idx _, _, h1, _ => by simp [peLt] at h1
  | .key _, .key _, .idx _, _, h2 => by simp [peLt] at h2
  | .key a, .key b, .key c, h1, h2 => by
    simp only [peLt, decide_eq_true_eq] at h1 h2 ⊢
    exact lt_trans h1 h2

theorem pathLe_refl : ∀ l, pathLe l l = true
  | [] => rfl
  | a :: al => by simp [pathLe, peLt_irrefl a, pathLe_refl al]

theorem pathLe_total : ∀ l1 l2, pathLe l1 l2 = true ∨ pathLe l2 l1 = true
  | [], _ => Or.inl rfl
  | _ :: _, [] => Or.inr rfl
  | a :: al, b :: bl => by
    cases hab : peLt a b
    · cases hba : peLt b a
      · simpa [pathLe, hab, hba] using pathLe_total al bl
      · simp [pathLe, hab, hba]
    · simp [pathLe, hab]

theorem pathLe_trans :
    ∀ l1 l2 l3, pathLe l1 l2 = true → pathLe l2 l3 = true → pathLe l1 l3 = true
  | [], _, _, _, _ => rfl
  | _ :: _, [], _, h1, _ => by simp [pathLe] at h1
  | _ :: _, _ :: _, [], _, h2 => by simp [pathLe] at h2
  | a :: al, b :: bl, c :: cl, h1, h2 => by
    by_cases hab : peLt a b = true
    · by_cases hbc : peLt b c = true
      · simp [pathLe, peLt_trans a b c hab hbc]
      · by_cases hcb : peLt c b = true
        · simp [pathLe, hbc, hcb] at h2
        · have hbce : b = c :=
            peLt_eq_of_not b c (by simpa using hbc) (by simpa using hcb)
          subst hbce
          simp [pathLe, hab]
    · by_cases hba : peLt b a = true
      · simp [pathLe, hab, hba] at h1
      · have habe : a = b :=
          peLt_eq_of_not a b (by simpa using hab) (by simpa using hba)
        subst habe
        by_cases hac : peLt a c = true
        · simp [pathLe, hac]
        · by_cases hca : peLt c a = true
          · simp [pathLe, hac, hca] at h2
          · have hace : a = c :=
              peLt_eq_of_not a c (by simpa using hac) (by simpa using hca)
            subst hace
            simp only [pathLe, peLt_irrefl, if_false, Bool.false_eq_true] at h1 h2 ⊢
            exact pathLe_trans al bl cl h1 h2

instance : IsTotal Violation vioLe :=
  ⟨fun a b => pathLe_total a.path b.path⟩

instance : IsTrans Violation vioLe :=
  ⟨fun a b c h1 h2 => pathLe_trans a.path b.path c.path h1 h2⟩

theorem unchangedEntry_iff (prev : Option PrevRec) (e : Entry) :
    unchangedEntry prev e = true ↔
      ∃ p, prev = some p ∧ p.etag = e.etag ∧ p.last_modified = e.last_modified ∧
        p.status = "ok" := by
  cases prev with
  | none => simp [unchangedEntry]
  | some p => simp [unchangedEntry, and_assoc]

theorem processEntry_trace_cons (prev : Option PrevRec) (e : Entry) (fetch : FetchOutcome)
    (proc : Doc → ProcResult × List Act) (h : unchangedEntry prev e = false) :
    ∃ rest, (processEntry prev e fetch proc).1 = Act.fetch e.href :: rest := by
  unfold processEntry
  simp only [h, Bool.false_eq_true, if_false]
  cases fetch with
  | failure msg => exact ⟨_, rfl⟩
  | success data =>
    by_cases hft : fileTypeOk data
    · by_cases hsid : schemaIdTruthy (get_schema_id data)
      · simp only [hft, hsid, Bool.not_true, Bool.false_eq_true, if_false]
        rcases hpd : proc data with ⟨r, acts⟩
        cases r with
        | ret ok msg =>
          exact ⟨acts ++ [Act.stateWrite e.href (statusFor (.ret ok msg)), Act.commit], rfl⟩
        | raise msg =>
          exact ⟨acts ++ [Act.rollback, Act.stateWrite e.href (statusFor (.raise msg)),
            Act.commit], rfl⟩
      · have hsid' : schemaIdTruthy (get_schema_id data) = false := by simpa using hsid
        simp only [hft, hsid', Bool.not_true, Bool.not_false, Bool.false_eq_true, if_false,
          if_true]
        exact ⟨_, rfl⟩
    · have hft' : fileTypeOk data = false := by simpa using hft
      simp only [hft', Bool.not_false, if_true]
      exact ⟨_, rfl⟩

theorem fetch_mem_iff (prev : Option PrevRec) (e : Entry) (fetch : FetchOutcome)
    (proc : Doc → ProcResult × List Act) :
    Act.fetch e.href ∈ (processEntry prev e fetch proc).1 ↔
      unchangedEntry prev e = false := by
  constructor
  · intro hmem
    by_contra hne
    have h : unchangedEntry prev e = true := by simpa using hne
    unfold processEntry at hmem
    simp [h] at hmem
  · intro h
    obtain ⟨rest, hr⟩ := processEntry_trace_cons prev e fetch proc h
    rw [hr]
    exact List.mem_cons_self _ _

/-- C1: in the remote-feed scan loop, the fetch for a listed entry is
skipped if and only if a prior state record exists for its path whose
stored etag and last_modified both equal the entry's current values and
whose stored status is "ok"; in particular, an entry whose change token
matches the stored one but whose prior status is "error" or "skipped" is
fetched again on the next scan. -/
theorem fetch_skipped_iff_unchanged_ok (prev : Option PrevRec) (e : Entry)
    (fetch : FetchOutcome) (proc : Doc → ProcResult × List Act) :
    (Act.fetch e.href ∈ (processEntry prev e fetch proc).1 ↔
      ¬∃ p, prev = some p ∧ p.etag = e.etag ∧ p.last_modified = e.last_modified ∧
        p.status = "ok") ∧
    (∀ p, prev = some p → p.etag = e.etag → p.last_modified = e.last_modified →
      p.status = "error" ∨ p.status = "skipped" →
      Act.fetch e.href ∈ (processEntry prev e fetch proc).1) := by
  have hm := fetch_mem_iff prev e fetch proc
  constructor
  · rw [hm, ← unchangedEntry_iff]
    exact ⟨fun h hh => by simp [hh] at h, fun h => by simpa using h⟩
  · intro p hp he hl hs
    rw [hm]
    subst hp
    rcases hs with h | h <;> simp [unchangedEntry, h]

/-- Witness for C1 at a concrete input: a prior record with matching change
token but status "error" leads to a fetch. -/
theorem fetch_skipped_iff_unchanged_ok_witness :
    Act.fetch "/dav/a.json" ∈
      (processEntry (some ⟨"E1", "M1", "error"⟩) ⟨"/dav/a.json", "E1", "M1"⟩
        (.failure "boom") (fun _ => (.ret true "inserted", []))).1 :=
  (fetch_skipped_iff_unchanged_ok (some ⟨"E1", "M1", "error"⟩) ⟨"/dav/a.json", "E1", "M1"⟩
      (.failure "boom") (fun _ => (.ret true "inserted", []))).2
    ⟨"E1", "M1", "error"⟩ rfl rfl rfl (Or.inl rfl)

/-- C5: SchemaID extraction scans the document keys in original order,
normalizes each key by removing underscores and lower-casing, and returns
the stringified value of the first key normalizing to "schemaid"; when no
key matches, the extraction yields none and the remote scan loop records a
skipped "missing SchemaID" outcome without issuing any write. -/
theorem schema_id_extraction_spec (data : Doc) :
    (∀ pre k v post, data = pre ++ (k, v) :: post →
      (∀ kv ∈ pre, normKey kv.1 ≠ "schemaid") → normKey k = "schemaid" →
      get_schema_id data = some (pyStr v)) ∧
    ((∀ kv ∈ data, normKey kv.1 ≠ "schemaid") → get_schema_id data = none) ∧
    (∀ prev e proc, get_schema_id data = none → unchangedEntry prev e = false →
      fileTypeOk data = true →
      processEntry prev e (.success data) proc =
        ([Act.fetch e.href, Act.stateWrite e.href "skipped", Act.commit],
         some { path := e.href, etag := e.etag, last_modified := e.last_modified,
                schema_id := none, identifier := none, status := "skipped",
                error := some "missing SchemaID" })) := by
  refine ⟨?_, ?_, ?_⟩
  · intro pre k v post hdata hpre hk
    subst hdata
    have hnone : pre.find? (fun kv => normKey kv.1 == "schemaid") = none := by
      rw [List.find?_eq_none]
      intro kv hkv
      simpa using hpre kv hkv
    rw [get_schema_id, List.find?_append, hnone, Option.none_or,
      List.find?_cons_of_pos _ (by simpa using hk)]
  · intro hall
    have hnone : data.find? (fun kv => normKey kv.1 == "schemaid") = none := by
      rw [List.find?_eq_none]
      intro kv hkv
      simpa using hall kv hkv
    rw [get_schema_id, hnone]
  · intro prev e proc hnone hunch hft
    unfold processEntry
    simp [hunch, hft, hnone, schemaIdTruthy]

/-- Witness for C5 at a concrete input: the first key normalizing to
"schemaid" wins, in document key order. -/
theorem schema_id_extraction_spec_witness :
    get_schema_id
        [("Other", Json.num 1), ("Schema_ID", Json.str "T1"), ("SchemaId", Json.str "T2")] =
      some "T1" :=
  (schema_id_extraction_spec
      [("Other", Json.num 1), ("Schema_ID", Json.str "T1"), ("SchemaId", Json.str "T2")]).1
    [("Other", Json.num 1)] "Schema_ID" (Json.str "T1") [("SchemaId", Json.str "T2")]
    rfl (by decide) (by decide)

/-- C10: a document whose `Identifier` / `identifier` field is present but
holds a Python-falsy JSON value (null, false, 0, empty string, empty array
or object) is treated by both ingesters as if the field were absent: the
identifier falls back to the source path's filename stem, and the falsy
field value is never used. -/
theorem falsy_identifier_falls_back_to_stem (data : Doc) (p : String)
    (h1 : Option.all (fun v => !truthy v) (pyGet data "Identifier") = true)
    (h2 : Option.all (fun v => !truthy v) (pyGet data "identifier") = true) :
    get_identifier data (pathStem p) = pathStem p ∧
    winIdentifier data (pathStem p) = Json.str (pathStem p) := by
  have hfb : identFallback data (pathStem p) = pathStem p := by
    unfold identFallback
    cases hv : pyGet data "identifier" with
    | none => rfl
    | some v =>
      rw [hv] at h2
      simp only [Option.all_some, Bool.not_eq_true'] at h2
      simp [h2]
  have hwfb : winIdentFallback data (pathStem p) = Json.str (pathStem p) := by
    unfold winIdentFallback
    cases hv : pyGet data "identifier" with
    | none => rfl
    | some v =>
      rw [hv] at h2
      simp only [Option.all_some, Bool.not_eq_true'] at h2
      simp [h2]
  constructor
  · unfold get_identifier
    cases hv : pyGet data "Identifier" with
    | none => exact hfb
    | some v =>
      rw [hv] at h1
      simp only [Option.all_some, Bool.not_eq_true'] at h1
      simp [h1, hfb]
  · unfold winIdentifier
    cases hv : pyGet data "Identifier" with
    | none => exact hwfb
    | some v =>
      rw [hv] at h1
      simp only [Option.all_some, Bool.not_eq_true'] at h1
      simp [h1, hwfb]

/-- Witness for C10 at a concrete input: `Identifier` holding 0 and
`identifier` holding the empty string both fall back to the stem "b". -/
theorem falsy_identifier_falls_back_to_stem_witness :
    get_identifier [("Identifier", Json.num 0), ("identifier", Json.str "")] (pathStem "/a/b.json") =
        pathStem "/a/b.json" ∧
    winIdentifier [("Identifier", Json.num 0), ("identifier", Json.str "")] (pathStem "/a/b.json") =
        Json.str (pathStem "/a/b.json") :=
  falsy_identifier_falls_back_to_stem
    [("Identifier", Json.num 0), ("identifier", Json.str "")] "/a/b.json" (by rfl) (by rfl)

/-- C4: both write policies project, for any document and any existing
table, a row with exactly one value per current column in current column
order; a column matching no document key (and not subject to the
identifier / documentlocation default fill) gets NULL; a matched JSON
object or array value is stored as its JSON text and a matched scalar
passes through unchanged. -/
theorem projection_row_invariant (columns : List String) (data : Doc) (identifier : Json)
    (location : String) :
    (projectRow columns data identifier location).length = columns.length ∧
    (∀ i c, columns.get? i = some c →
      (projectRow columns data identifier location).get? i =
        some (projectCell data identifier location c)) ∧
    (∀ column, lowerKeyLookup data (lowerStr column) = none →
      lowerStr column ≠ "identifier" → lowerStr column ≠ "documentlocation" →
      projectCell data identifier location column = SqlVal.null) ∧
    (∀ column k xs, lowerKeyLookup data (lowerStr column) = some k →
      pyGet data k = some (Json.arr xs) →
      projectCell data identifier location column = SqlVal.str (dumps (Json.arr xs))) ∧
    (∀ column k fs, lowerKeyLookup data (lowerStr column) = some k →
      pyGet data k = some (Json.obj fs) →
      projectCell data identifier location column = SqlVal.str (dumps (Json.obj fs))) ∧
    (∀ column k n, lowerKeyLookup data (lowerStr column) = some k →
      pyGet data k = some (Json.num n) →
      projectCell data identifier location column = SqlVal.int n) ∧
    (∀ column k s, lowerKeyLookup data (lowerStr column) = some k →
      pyGet data k = some (Json.str s) →
      projectCell data identifier location column = SqlVal.str s) ∧
    (∀ column k b, lowerKeyLookup data (lowerStr column) = some k →
      pyGet data k = some (Json.bool b) →
      projectCell data identifier location column = SqlVal.bool b) := by
  refine ⟨?_, ?_, ?_, ?_, ?_, ?_, ?_, ?_⟩
  · simp [projectRow]
  · intro i c hc
    rw [List.get?_eq_getElem?] at hc
    simp [projectRow, List.getElem?_map, hc]
  · intro column h1 h2 h3
    simp [projectCell, h1, h2, h3, normalize_value]
  · intro column k xs h1 h2
    simp [projectCell, h1, h2, normalize_value]
  · intro column k fs h1 h2
    simp [projectCell, h1, h2, normalize_value]
  · intro column k n h1 h2
    simp [projectCell, h1, h2, normalize_value]
  · intro column k s h1 h2
    simp [projectCell, h1, h2, normalize_value]
  · intro column k b h1 h2
    simp [projectCell, h1, h2, normalize_value]

/-- Witness for C4 at a concrete input: an unmatched plain column is NULL,
and a matched array value is stored as JSON text. -/
theorem projection_row_invariant_witness :
    projectCell [("Extra", Json.num 1)] (Json.str "id") "/u" "Missing" = SqlVal.null ∧
    projectCell [("Tags", Json.arr [Json.num 1, Json.num 2])] (Json.str "id") "/u" "tags" =
      SqlVal.str "[1, 2]" :=
  ⟨(projection_row_invariant ["Missing"] [("Extra", Json.num 1)] (Json.str "id") "/u").2.2.1
      "Missing" (by rfl) (by decide) (by decide),
   (projection_row_invariant ["tags"] [("Tags", Json.arr [Json.num 1, Json.num 2])]
        (Json.str "id") "/u").2.2.2.1 "tags" "Tags" [Json.num 1, Json.num 2]
      (by rfl) (by rfl)⟩

theorem filter_key_len_le_one {α β : Type} [BEq β] [LawfulBEq β] (f : α → β) (k : β)
    (rows : List α) (h : (rows.map f).Nodup) :
    (rows.filter (fun r => f r == k)).length ≤ 1 := by
  induction rows with
  | nil => simp
  | cons row rest ih =>
    rw [List.map_cons, List.nodup_cons] at h
    by_cases hk : f row == k
    · have hek : f row = k := by simpa using hk
      have hrest : rest.filter (fun r => f r == k) = [] := by
        rw [List.filter_eq_nil_iff]
        intro r hr hfr
        exact h.1 (by rw [hek, ← show f r = k by simpa using hfr]; exact List.mem_map_of_mem f hr)
      simp [List.filter_cons, hk, hrest]
    · simpa [List.filter_cons, hk] using ih h.2

theorem upsertRows_filter_key (idxs : List Nat) (r : List SqlVal)
    (rows : List (List SqlVal))
    (h : (rows.filter (fun row => keyOf idxs row == keyOf idxs r)).length ≤ 1) :
    (upsertRows idxs r rows).filter (fun row => keyOf idxs row == keyOf idxs r) = [r] := by
  induction rows with
  | nil => simp [upsertRows]
  | cons row rest ih =>
    by_cases hk : keyOf idxs row == keyOf idxs r
    · rw [List.filter_cons, if_pos hk, List.length_cons] at h
      have hrest : rest.filter (fun row => keyOf idxs row == keyOf idxs r) = [] :=
        List.eq_nil_of_length_eq_zero (by omega)
      simp [upsertRows, hk, List.filter_cons, hrest]
    · rw [List.filter_cons, if_neg hk] at h
      simp only [upsertRows, hk, Bool.false_eq_true, if_false]
      rw [List.filter_cons, if_neg hk]
      exact ih h

theorem dbGet_dbSet_self (db : Db) (n : String) (t t0 : Table)
    (h : dbGet db n = some t0) : dbGet (dbSet db n t) n = some t := by
  induction db with
  | nil => simp [dbGet] at h
  | cons kv rest ih =>
    by_cases hk : kv.1 == n
    · simp [dbSet, dbGet, hk]
    · rw [dbGet, List.find?_cons_of_neg _ (by simpa using hk)] at h
      rw [dbSet, if_neg (by simpa using hk), dbGet,
        List.find?_cons_of_neg _ (by simpa using hk)]
      exact ih h

theorem dbGet_dbSet_ne (db : Db) (n m : String) (t : Table) (h : m ≠ n) :
    dbGet (dbSet db n t) m = dbGet db m := by
  induction db with
  | nil => rfl
  | cons kv rest ih =>
    by_cases hk : kv.1 == n
    · have hkn : kv.1 = n := by simpa using hk
      rw [dbSet, if_pos hk, dbGet, dbGet,
        List.find?_cons_of_neg _ (by simpa using h.symm),
        List.find?_cons_of_neg _ (by simp [hkn]; exact fun hc => h hc.symm)]
    · rw [dbSet, if_neg hk, dbGet, dbGet]
      by_cases hm : kv.1 == m
      · rw [List.find?_cons_of_pos _ (by simpa using hm),
          List.find?_cons_of_pos _ (by simpa using hm)]
      · rw [List.find?_cons_of_neg _ (by simpa using hm),
          List.find?_cons_of_neg _ (by simpa using hm)]
        exact ih

/-- C3: the merge-write policy is idempotent: for any target table
satisfying its unique-key constraint, processing the same document twice
leaves exactly one logical row for the projected row's key, whose column
values equal the (second) write's projection. -/
theorem merge_write_idempotent (db : Db) (file_path table : String) (identifier : Json)
    (data : Doc) (t : Table) (ht : dbGet db table = some t) (hcols : t.columns ≠ [])
    (huniq : (t.rows.map (keyOf t.uniqueKey)).Nodup) :
    ∃ t2,
      dbGet (process_file_win (process_file_win db file_path table identifier data)
          file_path table identifier data) table = some t2 ∧
      t2.rows.filter
          (fun row => keyOf t.uniqueKey row ==
            keyOf t.uniqueKey (projectRow t.columns data identifier file_path)) =
        [projectRow t.columns data identifier file_path] := by
  have hem : t.columns.isEmpty = false := by
    cases hc : t.columns with
    | nil => exact absurd hc hcols
    | cons a l => rfl
  set r := projectRow t.columns data identifier file_path with hr
  have h1 : process_file_win db file_path table identifier data =
      dbSet db table { t with rows := upsertRows t.uniqueKey r t.rows } := by
    rw [process_file_win, ht]
    simp [hem]
  have hget1 : dbGet (process_file_win db file_path table identifier data) table =
      some { t with rows := upsertRows t.uniqueKey r t.rows } := by
    rw [h1]
    exact dbGet_dbSet_self db table _ t ht
  have h2 : process_file_win (process_file_win db file_path table identifier data)
      file_path table identifier data =
      dbSet (process_file_win db file_path table identifier data) table
        { t with rows := upsertRows t.uniqueKey r (upsertRows t.uniqueKey r t.rows) } := by
    rw [process_file_win, hget1]
    simp [hem]
  refine ⟨{ t with rows := upsertRows t.uniqueKey r (upsertRows t.uniqueKey r t.rows) },
    ?_, ?_⟩
  · rw [h2]
    exact dbGet_dbSet_self _ table _ _ hget1
  · have hle1 : (t.rows.filter (fun row => keyOf t.uniqueKey row == keyOf t.uniqueKey r)).length ≤ 1 :=
      filter_key_len_le_one (keyOf t.uniqueKey) (keyOf t.uniqueKey r) t.rows huniq
    have hf1 := upsertRows_filter_key t.uniqueKey r t.rows hle1
    have hle2 : ((upsertRows t.uniqueKey r t.rows).filter
        (fun row => keyOf t.uniqueKey row == keyOf t.uniqueKey r)).length ≤ 1 := by
      rw [hf1]
      simp
    exact upsertRows_filter_key t.uniqueKey r _ hle2

/-- Witness for C3 at a concrete input: inserting the same projected
document twice into an initially empty keyed table leaves exactly one row. -/
theorem merge_write_idempotent_witness :
    ∃ t2,
      dbGet (process_file_win (process_file_win
            [("T1", { columns := ["Identifier", "Value"], uniqueKey := [0], rows := [] })]
            "/a/b.json" "T1" (Json.str "b")
            [("SchemaID", Json.str "T1"), ("Value", Json.num 42)])
          "/a/b.json" "T1" (Json.str "b")
          [("SchemaID", Json.str "T1"), ("Value", Json.num 42)]) "T1" = some t2 ∧
      t2.rows.filter
          (fun row => keyOf [0] row ==
            keyOf [0] (projectRow ["Identifier", "Value"]
              [("SchemaID", Json.str "T1"), ("Value", Json.num 42)] (Json.str "b") "/a/b.json")) =
        [projectRow ["Identifier", "Value"]
          [("SchemaID", Json.str "T1"), ("Value", Json.num 42)] (Json.str "b") "/a/b.json"] :=
  merge_write_idempotent
    [("T1", { columns := ["Identifier", "Value"], uniqueKey := [0], rows := [] })]
    "/a/b.json" "T1" (Json.str "b") [("SchemaID", Json.str "T1"), ("Value", Json.num 42)]
    { columns := ["Identifier", "Value"], uniqueKey := [0], rows := [] }
    (by rfl) (by decide) (by simp)

/-- C9: merge-write scenario: table `T1` with columns
(Identifier, DocumentLocation, Value) and document
`{"SchemaID": "T1", "Value": 42}` scanned from path `/a/b.json` produce the
inserted row ("b", "/a/b.json", 42): Identifier is default-filled with the
filename stem and DocumentLocation with the source path. -/
theorem merge_write_scenario_row :
    winFileStep
        [("T1", { columns := ["Identifier", "DocumentLocation", "Value"],
                  uniqueKey := [0], rows := [] })] []
        { path := "/a/b.json",
          parsed := some [("SchemaID", Json.str "T1"), ("Value", Json.num 42)] } =
      ([("T1",
          { columns := ["Identifier", "DocumentLocation", "Value"],
            uniqueKey := [0],
            rows := [[SqlVal.str "b", SqlVal.str "/a/b.json", SqlVal.int 42]] })],
       [("/a/b.json", { table := "T1", identifier := Json.str "b" })]) := by
  rfl

/-- C2: in the insert-only-if-absent policy, a document that reaches the
write step (allow-list passed, schema found, validation clean, table
present with a nonempty column list containing the chosen identifier
column) first issues a SELECT ... FOR UPDATE on the identifier column; when
a row with that identifier exists, no insert happens, the database is
unchanged, a commit releases the lock, and the outcome is reported as a
skip (recorded with status "skipped", not "error"); when no row exists, a
plain INSERT is issued followed by a commit. -/
theorem insert_only_if_absent (db : Db) (allowed : Option (List String))
    (url : String) (data : Doc) (schema_id identifier : String) (t : Table)
    (hallow : (match allowed with
               | some lst => !(lst.contains schema_id)
               | none => false) = false)
    (ht : dbGet db schema_id = some t)
    (hcols : t.columns.isEmpty = false)
    (hid : t.columns.contains (identifierCol t.columns) = true) :
    (t.rows.any (fun row =>
        row.getD (t.columns.indexOf (identifierCol t.columns)) .null ==
          .str identifier) = true →
      process_file db allowed true none url data schema_id identifier =
        (.ret false ("Identifier " ++ identifier ++ " already exists in " ++ schema_id ++ "."),
         db,
         [Act.selectForUpdate schema_id (identifierCol t.columns) identifier, Act.commit]) ∧
      statusFor (.ret false
        ("Identifier " ++ identifier ++ " already exists in " ++ schema_id ++ ".")) =
        "skipped") ∧
    (t.rows.any (fun row =>
        row.getD (t.columns.indexOf (identifierCol t.columns)) .null ==
          .str identifier) = false →
      process_file db allowed true none url data schema_id identifier =
        (.ret true "inserted",
         dbSet db schema_id
           { t with rows := t.rows ++ [projectRow t.columns data (.str identifier) url] },
         [Act.selectForUpdate schema_id (identifierCol t.columns) identifier,
          Act.insert schema_id (projectRow t.columns data (.str identifier) url),
          Act.commit])) := by
  have hallow2 := hallow
  have hid2 := hid
  simp at hallow2 hid2
  constructor
  · intro hex
    constructor
    · have hex2 := hex
      simp at hex2
      unfold process_file
      simp [hallow2, ht, hcols, hid2, hex2]
    · rfl
  · intro hex
    have hex2 := hex
    simp at hex2
    unfold process_file
    simp [hallow2, ht, hcols, hid2]
    exact hex2

/-- Witness for C2 at a concrete input: an existing identifier row yields
the duplicate skip with no insert and an unchanged database. -/
theorem insert_only_if_absent_witness :
    process_file [("T1", { columns := ["Identifier"], uniqueKey := [], rows := [[SqlVal.str "x"]] })]
        none true none "/u" [] "T1" "x" =
      (.ret false "Identifier x already exists in T1.",
       [("T1", { columns := ["Identifier"], uniqueKey := [], rows := [[SqlVal.str "x"]] })],
       [Act.selectForUpdate "T1" "Identifier" "x", Act.commit]) :=
  ((insert_only_if_absent
      [("T1", { columns := ["Identifier"], uniqueKey := [], rows := [[SqlVal.str "x"]] })]
      none "/u" [] "T1" "x"
      { columns := ["Identifier"], uniqueKey := [], rows := [[SqlVal.str "x"]] }
      rfl rfl rfl (by decide)).1 (by decide)).1

/-- C8: a database error raised while processing one document of the remote
scan triggers a rollback that precedes the error record written to the
state store with status "error", and the scan goes on: the trace and state
records of a scan decompose entrywise, so later entries are processed
regardless of earlier outcomes. -/
theorem db_error_rollback_then_record (prev : Option PrevRec) (e : Entry) (data : Doc)
    (proc : Doc → ProcResult × List Act) (msg : String) (acts : List Act)
    (stateMap : String → Option PrevRec)
    (hunch : unchangedEntry prev e = false) (hft : fileTypeOk data = true)
    (hsid : schemaIdTruthy (get_schema_id data) = true)
    (hproc : proc data = (.raise msg, acts)) :
    processEntry prev e (.success data) proc =
      ([Act.fetch e.href] ++ acts ++
         [Act.rollback, Act.stateWrite e.href "error", Act.commit],
       some { path := e.href, etag := e.etag, last_modified := e.last_modified,
              schema_id := some ((get_schema_id data).getD ""),
              identifier := some (get_identifier data (pathStem e.href)),
              status := "error", error := some msg }) ∧
    (∀ pre post, scanFiles stateMap (pre ++ post) =
      ((scanFiles stateMap pre).1 ++ (scanFiles stateMap post).1,
       (scanFiles stateMap pre).2 ++ (scanFiles stateMap post).2)) := by
  constructor
  · unfold processEntry
    simp [hunch, hft, hsid, hproc, statusFor]
  · intro pre post
    induction pre with
    | nil => simp [scanFiles]
    | cons x tl ih =>
      rcases x with ⟨e1, f1, p1⟩
      simp [scanFiles, ih, List.append_assoc]

/-- Witness for C8 at a concrete input: a raising `process_file` yields a
trace whose rollback immediately precedes the "error" state record. -/
theorem db_error_rollback_then_record_witness :
    processEntry none ⟨"/dav/a.json", "E1", "M1"⟩
        (.success [("FileTypeIdentifier", Json.str FILE_TYPE_IDENTIFIER),
                   ("SchemaID", Json.str "T1")])
        (fun _ => (.raise "deadlock", [Act.selectForUpdate "T1" "Identifier" "a"])) =
      ([Act.fetch "/dav/a.json"] ++ [Act.selectForUpdate "T1" "Identifier" "a"] ++
         [Act.rollback, Act.stateWrite "/dav/a.json" "error", Act.commit],
       some { path := "/dav/a.json", etag := "E1", last_modified := "M1",
              schema_id := some ((get_schema_id
                [("FileTypeIdentifier", Json.str FILE_TYPE_IDENTIFIER),
                 ("SchemaID", Json.str "T1")]).getD ""),
              identifier := some (get_identifier
                [("FileTypeIdentifier", Json.str FILE_TYPE_IDENTIFIER),
                 ("SchemaID", Json.str "T1")] (pathStem "/dav/a.json")),
              status := "error", error := some "deadlock" }) :=
  (db_error_rollback_then_record none ⟨"/dav/a.json", "E1", "M1"⟩
      [("FileTypeIdentifier", Json.str FILE_TYPE_IDENTIFIER), ("SchemaID", Json.str "T1")]
      (fun _ => (.raise "deadlock", [Act.selectForUpdate "T1" "Identifier" "a"]))
      "deadlock" [Act.selectForUpdate "T1" "Identifier" "a"] (fun _ => none)
      rfl rfl rfl rfl).1

/-- C6: schema validation collects all constraint violations and reports
the message of a violation whose location path is lexicographically least
among all collected violations (the head of the stable sort by path); being
a pure function of the violation list, the reported message is
deterministic for a given schema and document. -/
theorem validation_reports_lex_min_message (errors : List Violation) (h : errors ≠ []) :
    ∃ e, e ∈ errors ∧ validate_payload errors = some e.message ∧
      ∀ f ∈ errors, pathLe e.path f.path = true := by
  have hperm := List.perm_insertionSort vioLe errors
  have hsorted := List.sorted_insertionSort vioLe errors
  cases hs : List.insertionSort vioLe errors with
  | nil =>
    rw [hs] at hperm
    exact absurd hperm.symm.eq_nil h
  | cons a tl =>
    refine ⟨a, ?_, ?_, ?_⟩
    · have ha : a ∈ List.insertionSort vioLe errors := by
        rw [hs]
        exact List.mem_cons_self a tl
      exact hperm.mem_iff.1 ha
    · rw [validate_payload, hs]
    · intro f hf
      have hf2 : f ∈ a :: tl := by
        rw [← hs]
        exact hperm.mem_iff.2 hf
      rcases List.mem_cons.1 hf2 with rfl | hmem
      · exact pathLe_refl f.path
      · rw [hs] at hsorted
        exact List.rel_of_sorted_cons hsorted f hmem

/-- Witness for C6 at a concrete input: of two violations the one at the
lexicographically smaller path is reported. -/
theorem validation_reports_lex_min_message_witness :
    ∃ e, e ∈ [Violation.mk [PathElem.key "b"] "late", Violation.mk [PathElem.key "a"] "early"] ∧
      validate_payload
          [Violation.mk [PathElem.key "b"] "late", Violation.mk [PathElem.key "a"] "early"] =
        some e.message ∧
      ∀ f ∈ [Violation.mk [PathElem.key "b"] "late", Violation.mk [PathElem.key "a"] "early"],
        pathLe e.path f.path = true :=
  validation_reports_lex_min_message
    [Violation.mk [PathElem.key "b"] "late", Violation.mk [PathElem.key "a"] "early"]
    (List.cons_ne_nil _ _)

/-- Predicate: the database holds no row of `table` whose identifier column
matches `identifier` (vacuously true when the table or an identifier
column is absent, in which case `delete_row` has nothing to delete). -/
def noRowMatches (db : Db) (table : String) (identifier : Json) : Prop :=
  ∀ t, dbGet db table = some t → ∀ idx, idColIdx t.columns = some idx →
    ∀ row ∈ t.rows, (row.getD idx .null == jsonToSql identifier) = false

theorem delete_row_establishes (db : Db) (table : String) (identifier : Json) :
    noRowMatches (delete_row db table identifier) table identifier := by
  intro t2 ht2 idx hidx row hrow
  unfold delete_row at ht2
  cases hdb : dbGet db table with
  | none => simp [hdb] at ht2
  | some t =>
    simp only [hdb] at ht2
    cases hic : idColIdx t.columns with
    | none =>
      simp only [hic] at ht2
      rw [hdb] at ht2
      injection ht2 with ht2
      subst ht2
      rw [hic] at hidx
      cases hidx
    | some idx0 =>
      simp only [hic] at ht2
      rw [dbGet_dbSet_self db table _ t hdb] at ht2
      injection ht2 with ht2
      subst ht2
      have hidx2 : idx = idx0 := by
        have : idColIdx t.columns = some idx := by simpa using hidx
        rw [hic] at this
        injection this with h2
        exact h2.symm
      subst hidx2
      have hcond := (List.mem_filter.1 hrow).2
      simpa using hcond

theorem delete_row_preserves (db : Db) (tn : String) (i2 : Json) (T : String) (I : Json)
    (h : noRowMatches db T I) : noRowMatches (delete_row db tn i2) T I := by
  intro t ht idx hidx row hrow
  unfold delete_row at ht
  cases hdb : dbGet db tn with
  | none =>
    simp only [hdb] at ht
    exact h t ht idx hidx row hrow
  | some t0 =>
    simp only [hdb] at ht
    cases hic : idColIdx t0.columns with
    | none =>
      simp only [hic] at ht
      exact h t ht idx hidx row hrow
    | some idx0 =>
      simp only [hic] at ht
      by_cases hTn : T = tn
      · subst hTn
        rw [dbGet_dbSet_self db T _ t0 hdb] at ht
        injection ht with ht
        subst ht
        have hrow0 : row ∈ t0.rows := (List.mem_filter.1 hrow).1
        exact h t0 hdb idx (by simpa using hidx) row hrow0
      · rw [dbGet_dbSet_ne db tn T _ hTn] at ht
        exact h t ht idx hidx row hrow

theorem delete_fold_preserves (cur rest : List (String × StateInfo)) (db : Db)
    (T : String) (I : Json) (h : noRowMatches db T I) :
    noRowMatches (rest.foldl (fun d kv =>
      if (cur.find? (fun c => c.1 == kv.1)).isSome then d
      else delete_row d kv.2.table kv.2.identifier) db) T I := by
  induction rest generalizing db with
  | nil => exact h
  | cons kv tl ih =>
    simp only [List.foldl_cons]
    apply ih
    by_cases hc : (cur.find? (fun c => c.1 == kv.1)).isSome
    · rw [if_pos hc]
      exact h
    · rw [if_neg hc]
      exact delete_row_preserves db kv.2.table kv.2.identifier T I h

theorem delete_fold_establishes (prevl cur : List (String × StateInfo)) (db : Db)
    (p : String) (info : StateInfo) (hmem : (p, info) ∈ prevl)
    (habs : (cur.find? (fun c => c.1 == p)).isSome = false) :
    noRowMatches (prevl.foldl (fun d kv =>
      if (cur.find? (fun c => c.1 == kv.1)).isSome then d
      else delete_row d kv.2.table kv.2.identifier) db) info.table info.identifier := by
  induction prevl generalizing db with
  | nil => cases hmem
  | cons kv tl ih =>
    simp only [List.foldl_cons]
    rcases List.mem_cons.1 hmem with heq | hmem2
    · have hkv : kv = (p, info) := heq.symm
      subst hkv
      have hstep : (if ((cur.find? (fun c => c.1 == (p, info).1)).isSome : Bool) then db
          else delete_row db (p, info).2.table (p, info).2.identifier) =
          delete_row db info.table info.identifier := by
        simp [habs]
      rw [hstep]
      exact delete_fold_preserves cur tl _ info.table info.identifier
        (delete_row_establishes db info.table info.identifier)
    · exact ih _ hmem2

theorem assocSet_keys (cur : List (String × StateInfo)) (p : String) (i : StateInfo) :
    ∀ kv ∈ assocSet cur p i, kv.1 = p ∨ kv ∈ cur := by
  induction cur with
  | nil =>
    intro kv h
    have := List.mem_singleton.1 h
    rw [this]
    exact Or.inl rfl
  | cons c tl ih =>
    intro kv h
    unfold assocSet at h
    by_cases hc : c.1 == p
    · rw [if_pos hc] at h
      rcases List.mem_cons.1 h with heq | hm
      · rw [heq]
        exact Or.inl rfl
      · exact Or.inr (List.mem_cons_of_mem c hm)
    · rw [if_neg hc] at h
      rcases List.mem_cons.1 h with heq | hm
      · rw [heq]
        exact Or.inr (List.mem_cons_self c tl)
      · rcases ih kv hm with h1 | h2
        · exact Or.inl h1
        · exact Or.inr (List.mem_cons_of_mem c h2)

theorem winFileStep_keys (db : Db) (cur : List (String × StateInfo)) (f : FileInput) :
    ∀ kv ∈ (winFileStep db cur f).2, kv.1 = f.path ∨ kv ∈ cur := by
  intro kv h
  unfold winFileStep at h
  by_cases h1 : lastComponent f.path == ".db_ingest_state.json"
  · rw [if_pos h1] at h
    exact Or.inr h
  · rw [if_neg h1] at h
    cases hp : f.parsed with
    | none =>
      simp only [hp] at h
      exact Or.inr h
    | some data =>
      simp only [hp] at h
      cases hs : get_schema_id data with
      | none =>
        simp only [hs] at h
        exact Or.inr h
      | some sid =>
        simp only [hs] at h
        by_cases h2 : sid == ""
        · rw [if_pos h2] at h
          exact Or.inr h
        · rw [if_neg h2] at h
          exact assocSet_keys cur f.path _ kv h

theorem winFold_state_keys (files : List FileInput) (db : Db)
    (cur : List (String × StateInfo)) :
    ∀ kv ∈ (files.foldl (fun acc f => winFileStep acc.1 acc.2 f) (db, cur)).2,
      kv ∈ cur ∨ ∃ f ∈ files, f.path = kv.1 := by
  induction files generalizing db cur with
  | nil =>
    intro kv h
    exact Or.inl h
  | cons f tl ih =>
    intro kv h
    simp only [List.foldl_cons] at h
    rcases ih (winFileStep db cur f).1 (winFileStep db cur f).2 kv h with hm | ⟨g, hg, hp⟩
    · rcases winFileStep_keys db cur f kv hm with h1 | h1
      · exact Or.inr ⟨f, List.mem_cons_self f tl, h1.symm⟩
      · exact Or.inl h1
    · exact Or.inr ⟨g, List.mem_cons_of_mem f hg, hp⟩

/-- C7: in the filesystem-reconciliation variant with deletion enabled, a
path present in the previous state snapshot but absent from the current
scan has its stored (table, identifier) row deleted from the database, and
the path does not appear in the state snapshot written at the end of the
scan. -/
theorem reconcile_missing_deletes_row (db : Db) (prev : List (String × StateInfo))
    (files : List FileInput) (p : String) (info : StateInfo)
    (hmem : (p, info) ∈ prev) (habs : ∀ f ∈ files, f.path ≠ p) :
    (∀ kv ∈ (runOnce db prev files true).2, kv.1 ≠ p) ∧
    noRowMatches (runOnce db prev files true).1 info.table info.identifier := by
  have hkeys : ∀ kv ∈ (files.foldl (fun acc f => winFileStep acc.1 acc.2 f)
      (db, ([] : List (String × StateInfo)))).2, kv.1 ≠ p := by
    intro kv hkv
    rcases winFold_state_keys files db [] kv hkv with hm | ⟨g, hg, hp⟩
    · cases hm
    · rw [← hp]
      exact habs g hg
  constructor
  · intro kv hkv
    exact hkeys kv hkv
  · have hfind : (((files.foldl (fun acc f => winFileStep acc.1 acc.2 f)
        (db, ([] : List (String × StateInfo)))).2.find?
          (fun c => c.1 == p)).isSome : Bool) = false := by
      cases hf : (files.foldl (fun acc f => winFileStep acc.1 acc.2 f)
          (db, ([] : List (String × StateInfo)))).2.find? (fun c => c.1 == p) with
      | none => rfl
      | some c =>
        have hcp : c.1 = p := by simpa using List.find?_some hf
        exact absurd hcp (hkeys c (List.mem_of_find?_eq_some hf))
    exact delete_fold_establishes prev _ _ p info hmem hfind

/-- Witness for C7 at a concrete input: a path seen in the previous
snapshot but not in the (empty) current scan has its row removed and no
state entry written. -/
theorem reconcile_missing_deletes_row_witness :
    (∀ kv ∈ (runOnce
        [("T1", { columns := ["Identifier"], uniqueKey := [], rows := [[SqlVal.str "b"]] })]
        [("B", { table := "T1", identifier := Json.str "b" })] [] true).2, kv.1 ≠ "B") ∧
    noRowMatches (runOnce
        [("T1", { columns := ["Identifier"], uniqueKey := [], rows := [[SqlVal.str "b"]] })]
        [("B", { table := "T1", identifier := Json.str "b" })] [] true).1 "T1" (Json.str "b") :=
  reconcile_missing_deletes_row
    [("T1", { columns := ["Identifier"], uniqueKey := [], rows := [[SqlVal.str "b"]] })]
    [("B", { table := "T1", identifier := Json.str "b" })] [] "B"
    { table := "T1", identifier := Json.str "b" }
    (List.mem_singleton.2 rfl) (by intro f hf; cases hf)
